import Mathlib

/-!
Verification of the task-manager web application (Fastify + knex/sqlite).

The data-access layer and the request handlers of `src/app.js` and the
repository/schema code of `src/server.js` are shallowly embedded as pure
Lean functions over an explicit database state.  External JavaScript
builtins and libraries (`JSON.parse`, `decodeURIComponent`, `bcrypt`)
are modelled as function parameters; repository files that are not part
of the provided sources are modelled from the specification, each such
definition carrying a doc comment saying so.
-/

namespace TaskApp

/-- Row of the `users` table (schema in `ensureSchema`). -/
structure User where
  id : Nat
  firstName : String
  lastName : String
  email : String
  password : String
deriving Repr, DecidableEq

/-- Row of the `statuses` table. -/
structure Status where
  id : Nat
  name : String
deriving Repr, DecidableEq

/-- Row of the `tasks` table.  `description` and `executorId` are nullable
columns; `statusId` and `creatorId` are NOT NULL foreign keys. -/
structure Task where
  id : Nat
  name : String
  description : Option String
  statusId : Nat
  creatorId : Nat
  executorId : Option Nat
deriving Repr, DecidableEq

/-- Row of the `labels` table. -/
structure Label where
  id : Nat
  name : String
deriving Repr, DecidableEq

/-- Row of the `tasks_labels` join table (composite key `taskId, labelId`). -/
structure TaskLabel where
  taskId : Nat
  labelId : Nat
deriving Repr, DecidableEq

/-- The relational database state: one list of rows per table. -/
structure DB where
  users : List User
  statuses : List Status
  tasks : List Task
  labels : List Label
  tasksLabels : List TaskLabel
deriving Repr, DecidableEq

/-- Column description as produced by the knex table builders in
`ensureSchema` (`src/server.js`). -/
structure ColumnSpec where
  name : String
  notNullable : Bool
  unique : Bool
  primaryKey : Bool
deriving Repr, DecidableEq

/-- The `users` table schema from `ensureSchema`:
`increments('id').primary()`, `firstName`/`lastName` NOT NULL,
`email` NOT NULL UNIQUE, `password` NOT NULL. -/
def usersTableColumns : List ColumnSpec :=
  [ ⟨"id", false, false, true⟩
  , ⟨"firstName", true, false, false⟩
  , ⟨"lastName", true, false, false⟩
  , ⟨"email", true, true, false⟩
  , ⟨"password", true, false, false⟩ ]

/- ------------------------------------------------------------------
Status repository (`src/server.js`, exported `findAll`/`findById`/
`create`/`update`/`remove` over the `statuses` table). -/

/-- `statusRepository.findById`: first row with the given id. -/
def statusFindById (db : DB) (id : Nat) : Option Status :=
  db.statuses.find? (fun s => s.id == id)

/-- `statusRepository.remove`: counts tasks referencing the status; if any
exist returns `false` without touching the table, otherwise deletes the
row and returns whether a row was actually deleted.  The database state
is returned alongside the boolean. -/
def statusRemove (db : DB) (id : Nat) : DB × Bool :=
  let count := (db.tasks.filter (fun t => t.statusId == id)).length
  if count > 0 then (db, false)
  else
    let deleted := (db.statuses.filter (fun s => s.id == id)).length
    ({ db with statuses := db.statuses.filter (fun s => s.id != id) }, deleted > 0)

/-- Modelled from the spec: `userRepository.remove` is not among the
provided sources (only its caller `app.delete('/users/:id')` is).  Per
§3 and §4.1: deletion is blocked (returns `false`) if any task references
the user as creator; otherwise the row is deleted, executor references
are set to null, and the boolean reports whether a row was deleted. -/
def userRemove (db : DB) (id : Nat) : DB × Bool :=
  if db.tasks.any (fun t => t.creatorId == id) then (db, false)
  else
    let deleted := (db.users.filter (fun u => u.id == id)).length
    let users := db.users.filter (fun u => u.id != id)
    let tasks := db.tasks.map (fun t =>
      if t.executorId == some id then { t with executorId := none } else t)
    ({ db with users := users, tasks := tasks }, deleted > 0)

/-- Modelled from the spec: `userRepository.findById` is not among the
provided sources; standard CRUD `findById` per §4.1. -/
def userFindById (db : DB) (id : Nat) : Option User :=
  db.users.find? (fun u => u.id == id)

/-- Modelled from the spec: `userRepository.findByEmail` is not among the
provided sources (used by `POST /users` and `POST /session`); it returns
the user with the given email if one exists. -/
def userFindByEmail (db : DB) (email : String) : Option User :=
  db.users.find? (fun u => u.email == email)

/-- Modelled from the spec: `userRepository.create` is not among the
provided sources; standard CRUD insert with an auto-increment id. -/
def userCreate (db : DB) (firstName lastName email password : String) : DB × User :=
  let newId := (db.users.map (fun u => u.id)).foldl max 0 + 1
  let user : User := ⟨newId, firstName, lastName, email, password⟩
  ({ db with users := db.users ++ [user] }, user)

/-- Modelled from the spec: `taskRepository.findById` is not among the
provided sources; standard CRUD `findById` per §4.1. -/
def taskFindById (db : DB) (id : Nat) : Option Task :=
  db.tasks.find? (fun t => t.id == id)

/-- Modelled from the spec: `taskRepository.remove` is not among the
provided sources; it deletes the task row, and the `tasks_labels` rows
follow by the ON DELETE CASCADE constraint of `ensureSchema`. -/
def taskRemove (db : DB) (id : Nat) : DB :=
  { db with
    tasks := db.tasks.filter (fun t => t.id != id)
    tasksLabels := db.tasksLabels.filter (fun tl => tl.taskId != id) }

/- ------------------------------------------------------------------
Cookies, replies and flash messages (`src/app.js`). -/

/-- One `Set-Cookie` header appended by `setCookie`/`clearCookie`;
`expired` records that the cookie was sent with `Expires` in the past
(which is how `clearCookie` deletes a cookie). -/
structure CookieOp where
  name : String
  value : String
  expired : Bool
deriving Repr, DecidableEq

/-- The reply state the handlers thread: the accumulated `Set-Cookie`
headers. -/
structure Reply where
  setCookieOps : List CookieOp
deriving Repr, DecidableEq

def Reply.empty : Reply := ⟨[]⟩

/-- `setCookie`: append a `Set-Cookie` header. -/
def setCookie (reply : Reply) (name value : String) : Reply :=
  ⟨reply.setCookieOps ++ [⟨name, value, false⟩]⟩

/-- `clearCookie`: `setCookie` with empty value and `Expires = new Date(0)`. -/
def clearCookie (reply : Reply) (name : String) : Reply :=
  ⟨reply.setCookieOps ++ [⟨name, "", true⟩]⟩

/-- The flash payload `\x7btype, message\x7d` carried by the `flash` cookie. -/
structure FlashPayload where
  type : String
  message : String
deriving Repr, DecidableEq

/-- `JSON.stringify(\x7b type, message \x7d)` restricted to the flash
payload, with the two string fields escaped. -/
def jsonEscapeChar (c : Char) : String :=
  if c == '"' then "\\\"" else if c == '\\' then "\\\\" else String.mk [c]

def jsonEscape (s : String) : String :=
  String.join (s.toList.map jsonEscapeChar)

def jsonStringifyFlash (p : FlashPayload) : String :=
  "\x7b\"type\":\"" ++ jsonEscape p.type ++ "\",\"message\":\"" ++
    jsonEscape p.message ++ "\"\x7d"

/-- `setFlash`: serialize the payload with `JSON.stringify` and set the
`flash` cookie. -/
def setFlash (reply : Reply) (ty msg : String) : Reply :=
  setCookie reply "flash" (jsonStringifyFlash ⟨ty, msg⟩)

/-- Abbreviation for the `Set-Cookie` op a `setFlash` call produces. -/
def flashOp (ty msg : String) : CookieOp :=
  ⟨"flash", jsonStringifyFlash ⟨ty, msg⟩, false⟩

/-- `getFlash`: read the `flash` cookie; on a parse success clear the
cookie on the reply and return the payload, on a parse failure (the
`catch` branch) or a missing cookie return `null` and leave the reply
unchanged.  `parse` models the external `JSON.parse` (`none` = throw). -/
def getFlash (parse : String → Option FlashPayload)
    (cookies : List (String × String)) (reply : Reply) :
    Option FlashPayload × Reply :=
  match cookies.lookup "flash" with
  | none => (none, reply)
  | some v =>
    match parse v with
    | some p => (some p, clearCookie reply "flash")
    | none => (none, reply)

/-- Browser cookie-jar semantics, used to state one-shot flash behaviour:
a non-expired `Set-Cookie` replaces the cookie, an expired one deletes
it. -/
def applyCookieOp (jar : List (String × String)) (op : CookieOp) :
    List (String × String) :=
  let removed := jar.filter (fun kv => kv.1 != op.name)
  if op.expired then removed else removed ++ [(op.name, op.value)]

def applyCookieOps (jar : List (String × String)) (ops : List CookieOp) :
    List (String × String) :=
  ops.foldl applyCookieOp jar

/- ------------------------------------------------------------------
Cookie-header parsing (`parseCookies` in `src/app.js`). -/

/-- `String.prototype.trim`: drop whitespace from both ends. -/
def jsTrim (s : String) : String :=
  String.mk
    (((s.toList.dropWhile Char.isWhitespace).reverse.dropWhile
      Char.isWhitespace).reverse)

/-- `split(';')` on the character list: split into the groups between
semicolons. -/
def splitSemis : List Char → List (List Char)
  | [] => [[]]
  | c :: rest =>
    if c == ';' then [] :: splitSemis rest
    else
      match splitSemis rest with
      | [] => [[c]]
      | g :: gs => (c :: g) :: gs

/-- `String(cookieHeader).split(';').map(trim).filter(Boolean)`. -/
def splitPairs (header : String) : List String :=
  ((splitSemis header.toList).map (fun cs => jsTrim (String.mk cs))).filter
    (fun s => s != "")

/-- One pair of `parseCookies`' reduce step: find the first `=`; skip the
pair if there is none; otherwise trim key and value, and try the external
`decodeURIComponent` (`dec`, `none` = throw) falling back to the raw
value in the `catch` branch. -/
def pairKeyVal (dec : String → Option String) (pair : String) :
    Option (String × String) :=
  match pair.toList.findIdx? (fun c => c == '=') with
  | none => none
  | some idx =>
    let key := jsTrim (String.mk (pair.toList.take idx))
    let raw := jsTrim (String.mk (pair.toList.drop (idx + 1)))
    some (key, (dec raw).getD raw)

/-- Assignment `acc[key] = val` on the accumulator object. -/
def upsert (acc : List (String × String)) (kv : String × String) :
    List (String × String) :=
  acc.filter (fun e => e.1 != kv.1) ++ [kv]

/-- `parseCookies`: `\x7b\x7d` on a missing header, otherwise the reduce
over the split/trimmed/nonempty pairs. -/
def parseCookies (dec : String → Option String) (header : Option String) :
    List (String × String) :=
  match header with
  | none => []
  | some h =>
    (splitPairs h).foldl (fun acc pair =>
      match pairKeyVal dec pair with
      | none => acc
      | some kv => upsert acc kv) []

/- ------------------------------------------------------------------
Method-override preHandler hook (`src/app.js`). -/

/-- `String.prototype.toUpperCase` on the `_method` values: uppercase
every character. -/
def jsToUpperCase (s : String) : String :=
  String.mk (s.toList.map Char.toUpper)

/-- The `_method` preHandler hook: on a POST whose body has a truthy
`_method`, uppercase it and, when it is PATCH, DELETE or PUT, rewrite the
request method to it.  `bodyMethod` is `request.body && request.body._method`
(`none` when the body or the field is absent). -/
def methodOverride (method : String) (bodyMethod : Option String) : String :=
  if method == "POST" then
    match bodyMethod with
    | none => method
    | some s =>
      if s == "" then method
      else
        let m := jsToUpperCase s
        if m == "PATCH" || m == "DELETE" || m == "PUT" then m else method
  else method

/- ------------------------------------------------------------------
Global error handler (`app.setErrorHandler` in `src/app.js`). -/

/-- Outcome of the global error handler: what was forwarded to the
monitoring collaborator (error together with the raw request data), and
the HTTP response. -/
structure ErrorHandlerOutcome where
  reported : Option (String × String)
  status : Nat
  contentType : String
  body : String
deriving Repr, DecidableEq

/-- `app.setErrorHandler`: if `getRollbar()` yields a configured instance
the error is forwarded with the request data, and in every case the
client gets a generic 500 `Internal Server Error`.  The Rollbar
collaborator (`src/rollbar.js`) is not among the provided sources and is
modelled from the spec as a sink recording what was forwarded;
`rollbarConfigured` is whether `getRollbar()` returns an instance. -/
def errorHandler (rollbarConfigured : Bool) (error requestRaw : String) :
    ErrorHandlerOutcome :=
  { reported := if rollbarConfigured then some (error, requestRaw) else none
  , status := 500
  , contentType := "text/html"
  , body := "Internal Server Error" }

/- ------------------------------------------------------------------
Request handlers (`src/app.js`). -/

/-- How a handler terminates: a redirect or a plain 404. -/
inductive HttpOutcome
  | redirect (path : String)
  | notFound
deriving Repr, DecidableEq

/-- Common handler result: updated database, reply (accumulated
`Set-Cookie` headers) and outcome. -/
structure HResult where
  db : DB
  reply : Reply
  outcome : HttpOutcome
deriving Repr, DecidableEq

/-- `app.delete('/statuses/:id')`: require a current user, call
`statusRepo.remove`, and flash danger (blocked) or success. -/
def deleteStatusHandler (db : DB) (currentUser : Option User) (id : Nat) :
    HResult :=
  match currentUser with
  | none =>
    ⟨db, setFlash Reply.empty "danger" "Access denied",
      .redirect "/session/new"⟩
  | some _ =>
    let (db', ok) := statusRemove db id
    if ok then
      ⟨db', setFlash Reply.empty "success" "status.deleted",
        .redirect "/statuses"⟩
    else
      ⟨db', setFlash Reply.empty "danger"
        "Cannot delete status with assigned tasks", .redirect "/statuses"⟩

/-- `app.delete('/users/:id')`: only the user themselves may try; call
`userRepo.remove`, flash danger when it reports `false`, otherwise clear
the session cookie and flash success. -/
def deleteUserHandler (db : DB) (currentUser : Option User) (id : Nat) :
    HResult :=
  match currentUser with
  | none =>
    ⟨db, setFlash Reply.empty "danger" "Access denied", .redirect "/users"⟩
  | some u =>
    if u.id != id then
      ⟨db, setFlash Reply.empty "danger" "Access denied", .redirect "/users"⟩
    else
      let (db', ok) := userRemove db id
      if ok then
        ⟨db', setFlash (clearCookie Reply.empty "userId") "success"
          "User deleted", .redirect "/"⟩
      else
        ⟨db', setFlash Reply.empty "danger"
          "Cannot delete user with assigned tasks", .redirect "/users"⟩

/-- Result of `DELETE /tasks/:id`, recording additionally whether
`taskRepo.remove` was invoked. -/
structure TaskDeleteResult where
  db : DB
  reply : Reply
  outcome : HttpOutcome
  removeInvoked : Bool
deriving Repr, DecidableEq

/-- `app.delete('/tasks/:id')`: 404 when the task does not exist; `Access
denied` unless the current user's id equals the task's `creatorId`;
otherwise remove the task and flash success. -/
def deleteTaskHandler (db : DB) (currentUser : Option User) (id : Nat) :
    TaskDeleteResult :=
  match taskFindById db id with
  | none => ⟨db, Reply.empty, .notFound, false⟩
  | some task =>
    match currentUser with
    | none =>
      ⟨db, setFlash Reply.empty "danger" "Access denied",
        .redirect "/tasks", false⟩
    | some u =>
      if u.id != task.creatorId then
        ⟨db, setFlash Reply.empty "danger" "Access denied",
          .redirect "/tasks", false⟩
      else
        ⟨taskRemove db id, setFlash Reply.empty "success" "task.deleted",
          .redirect "/tasks", true⟩

/-- The `data` object of the registration form. -/
structure RegistrationData where
  firstName : String
  lastName : String
  email : String
  password : String
deriving Repr, DecidableEq

/-- `app.post('/users')`: validate presence and password length, reject a
duplicate email via `userRepo.findByEmail`, otherwise hash the password
(`hash` models the external `bcrypt.hash`), create the user, flash
success and auto-login by setting the `userId` cookie. -/
def postUsersHandler (hash : String → String) (db : DB)
    (d : RegistrationData) : HResult :=
  if d.firstName == "" || d.lastName == "" || d.email == "" ||
      d.password == "" || d.password.length < 3 then
    ⟨db, setFlash Reply.empty "danger" "Validation error: check required fields",
      .redirect "/users/new"⟩
  else
    match userFindByEmail db d.email with
    | some _ =>
      ⟨db, setFlash Reply.empty "danger" "Email already in use",
        .redirect "/users/new"⟩
    | none =>
      let hashed := hash d.password
      let (db', user) := userCreate db d.firstName d.lastName d.email hashed
      ⟨db', setCookie (setFlash Reply.empty "success" "User created")
        "userId" (toString user.id), .redirect "/users"⟩

/-- `app.post('/session')`: look the user up by email, verify the
password with the external `bcrypt.compare` (`compare`), flash `Invalid
credentials` on either failure; on success set the `userId` cookie to the
user's id, flash success and redirect to `/`. -/
def postSessionHandler (compare : String → String → Bool) (db : DB)
    (email password : String) : HResult :=
  match userFindByEmail db email with
  | none =>
    ⟨db, setFlash Reply.empty "danger" "Invalid credentials",
      .redirect "/session/new"⟩
  | some user =>
    if compare password user.password then
      ⟨db, setFlash (setCookie Reply.empty "userId" (toString user.id))
        "success" "Signed in", .redirect "/"⟩
    else
      ⟨db, setFlash Reply.empty "danger" "Invalid credentials",
        .redirect "/session/new"⟩

/- ------------------------------------------------------------------
Task listing and filters (`app.get('/tasks')` and the task repository's
`findAll`). -/

/-- The filter-related query parameters of `GET /tasks`; `none` is an
absent parameter. -/
structure TasksQuery where
  statusId : Option String := none
  executorId : Option String := none
  labelId : Option String := none
  onlyMy : Option String := none
  hasLabel : Option String := none
deriving Repr, DecidableEq

/-- JavaScript truthiness of an optional query-string value: present and
nonempty. -/
def jsTruthy : Option String → Bool
  | none => false
  | some s => s != ""

/-- `Number(s)` on an id string: the numeric value on a nonempty digit
string, `none` standing for `NaN` (a `NaN` filter value matches no
row). -/
def jsNumber (s : String) : Option Nat :=
  if s.toList ≠ [] ∧ s.toList.all (fun c => c.isDigit) then
    some (s.toList.foldl (fun acc c => acc * 10 + (c.toNat - 48)) 0)
  else none

/-- The filter object the `GET /tasks` handler builds.  A `some` id field
means the key is present; its inner `Option Nat` is the `Number(...)`
result (`none` = `NaN`). -/
structure TaskFilters where
  statusId : Option (Option Nat) := none
  executorId : Option (Option Nat) := none
  labelId : Option (Option Nat) := none
  hasLabel : Bool := false
  createdBy : Option Nat := none
deriving Repr, DecidableEq

/-- The filter-building prefix of `app.get('/tasks')`: each key is set
when its query parameter is truthy (ids through `Number`), `hasLabel`
when the flag is `1`/`true`/`on`, and `createdBy` only when `onlyMy` is
such a flag AND a current user is resolved from the session cookie. -/
def buildTaskFilters (q : TasksQuery) (currentUser : Option User) :
    TaskFilters :=
  { statusId :=
      if jsTruthy q.statusId then some (jsNumber (q.statusId.getD "")) else none
  , executorId :=
      if jsTruthy q.executorId then some (jsNumber (q.executorId.getD "")) else none
  , labelId :=
      if jsTruthy q.labelId then some (jsNumber (q.labelId.getD "")) else none
  , hasLabel :=
      jsTruthy q.hasLabel &&
        (q.hasLabel == some "1" || q.hasLabel == some "true" ||
          q.hasLabel == some "on")
  , createdBy :=
      match currentUser with
      | some u =>
        if jsTruthy q.onlyMy &&
            (q.onlyMy == some "1" || q.onlyMy == some "true" ||
              q.onlyMy == some "on") then
          some u.id
        else none
      | none => none }

/-- Modelled from the spec: `taskRepository.findAll` is not among the
provided sources.  Per §4.1 it accepts filters
`\x7bstatusId, executorId, labelId, hasLabel, createdBy\x7d` and composes
them as AND-conjoined predicates against the joined tables. -/
def taskFindAll (db : DB) (f : TaskFilters) : List Task :=
  db.tasks.filter (fun t =>
    (match f.statusId with
     | none => true
     | some v => v == some t.statusId) &&
    (match f.executorId with
     | none => true
     | some v =>
       match t.executorId with
       | some e => v == some e
       | none => false) &&
    (match f.labelId with
     | none => true
     | some v =>
       db.tasksLabels.any (fun tl => tl.taskId == t.id && some tl.labelId == v)) &&
    (if f.hasLabel then db.tasksLabels.any (fun tl => tl.taskId == t.id)
     else true) &&
    (match f.createdBy with
     | none => true
     | some c => t.creatorId == c))

/-- The list of tasks `app.get('/tasks')` passes to the view: the
repository `findAll` on the filters built from the query and the current
user. -/
def getTasksHandlerTasks (db : DB) (currentUser : Option User)
    (q : TasksQuery) : List Task :=
  taskFindAll db (buildTaskFilters q currentUser)

/- ------------------------------------------------------------------
Concrete rows used by the witnesses. -/

def wUser : User := ⟨1, "Ada", "Lovelace", "ada@example.com", "hashed"⟩

def wUser2 : User := ⟨2, "Max", "Planck", "max@example.com", "hashed2"⟩

def wTask : Task := ⟨1, "fix", none, 1, 1, none⟩

def wDB : DB := ⟨[wUser, wUser2], [⟨1, "new"⟩], [wTask], [], []⟩

/- ------------------------------------------------------------------
Shared helper lemmas. -/

theorem filter_length_pos_iff {α : Type} (l : List α) (p : α → Bool) :
    0 < (l.filter p).length ↔ ∃ a ∈ l, p a = true := by
  induction l with
  | nil => simp
  | cons a l ih =>
    by_cases h : p a = true
    · simp [List.filter_cons, h]
    · simp [List.filter_cons, h, ih]

theorem filter_eq_self_of_all {α : Type} (l : List α) (p : α → Bool)
    (h : ∀ a ∈ l, p a = true) : l.filter p = l :=
  List.filter_eq_self.mpr h

/- ------------------------------------------------------------------
Theorems for the claims. -/

/-- C9: `statusRepo.remove` also returns `false` when no status row with
the given id exists (zero rows deleted), so `false` does not imply a
referential-constraint violation; it returns `true` exactly when a row
was actually deleted, i.e. when no task references the status and a row
with that id was present. -/
theorem statusRemove_boolean_semantics (db : DB) (id : Nat) :
    ((∀ t ∈ db.tasks, t.statusId ≠ id) → (∀ s ∈ db.statuses, s.id ≠ id) →
      statusRemove db id = (db, false)) ∧
    ((statusRemove db id).2 = true ↔
      (∀ t ∈ db.tasks, t.statusId ≠ id) ∧ ∃ s ∈ db.statuses, s.id = id) := by
  have hcnt : (0 < (db.tasks.filter (fun t => t.statusId == id)).length) ↔
      ∃ t ∈ db.tasks, t.statusId = id := by
    rw [filter_length_pos_iff]
    simp
  constructor
  · intro ht hs
    have h1 : ¬ 0 < (db.tasks.filter (fun t => t.statusId == id)).length := by
      rw [hcnt]
      rintro ⟨t, htm, hteq⟩
      exact ht t htm hteq
    have h2 : (db.statuses.filter (fun s => s.id == id)).length = 0 := by
      by_contra h
      have : 0 < (db.statuses.filter (fun s => s.id == id)).length :=
        Nat.pos_of_ne_zero h
      rw [filter_length_pos_iff] at this
      rcases this with ⟨s, hsm, hseq⟩
      exact hs s hsm (by simpa using hseq)
    have h3 : db.statuses.filter (fun s => s.id != id) = db.statuses := by
      apply filter_eq_self_of_all
      intro s hsm
      simpa using hs s hsm
    simp only [statusRemove, if_neg h1, h2, h3]
    constructor
  · constructor
    · intro h
      by_cases hp : 0 < (db.tasks.filter (fun t => t.statusId == id)).length
      · simp only [statusRemove, if_pos hp] at h
        cases h
      · simp only [statusRemove, if_neg hp] at h
        refine ⟨?_, ?_⟩
        · intro t htm hteq
          exact hp (hcnt.mpr ⟨t, htm, hteq⟩)
        · have hpos : 0 < (db.statuses.filter (fun s => s.id == id)).length :=
            of_decide_eq_true h
          rcases (filter_length_pos_iff _ _).mp hpos with ⟨s, hsm, hseq⟩
          exact ⟨s, hsm, by simpa using hseq⟩
    · rintro ⟨ht, s, hsm, hseq⟩
      have h1 : ¬ 0 < (db.tasks.filter (fun t => t.statusId == id)).length := by
        rw [hcnt]
        rintro ⟨t, htm, hteq⟩
        exact ht t htm hteq
      simp only [statusRemove, if_neg h1]
      have : 0 < (db.statuses.filter (fun s => s.id == id)).length :=
        (filter_length_pos_iff _ _).mpr ⟨s, hsm, by simpa using hseq⟩
      simpa using this

/-- C9 witness: on a database whose only status has id 1 and is
referenced by no task with statusId 2, removing the missing status 2
returns `false` with the database unchanged. -/
theorem statusRemove_boolean_semantics_witness :
    (∀ t ∈ wDB.tasks, t.statusId ≠ 2) ∧ (∀ s ∈ wDB.statuses, s.id ≠ 2) ∧
      statusRemove wDB 2 = (wDB, false) := by
  refine ⟨by decide, by decide, ?_⟩
  exact (statusRemove_boolean_semantics wDB 2).1 (by decide) (by decide)

/-- C1: when a task references a status, `statusRepo.remove` returns
`false` with the database untouched, and the DELETE handler reports the
failure with a danger flash and a redirect; a user referenced as a
task's creator is likewise blocked, reported via the boolean of
`userRepo.remove` and a danger flash in the user DELETE handler. -/
theorem referenced_status_user_removal_blocked
    (db : DB) (sid uid : Nat) (u u' : User) (t1 t2 : Task)
    (ht1 : t1 ∈ db.tasks) (h1 : t1.statusId = sid)
    (ht2 : t2 ∈ db.tasks) (h2 : t2.creatorId = uid)
    (hu' : u'.id = uid) :
    statusRemove db sid = (db, false) ∧
    deleteStatusHandler db (some u) sid =
      ⟨db, setFlash Reply.empty "danger"
        "Cannot delete status with assigned tasks", .redirect "/statuses"⟩ ∧
    userRemove db uid = (db, false) ∧
    deleteUserHandler db (some u') uid =
      ⟨db, setFlash Reply.empty "danger"
        "Cannot delete user with assigned tasks", .redirect "/users"⟩ := by
  have hsr : statusRemove db sid = (db, false) := by
    have hp : 0 < (db.tasks.filter (fun t => t.statusId == sid)).length :=
      (filter_length_pos_iff _ _).mpr ⟨t1, ht1, by simpa using h1⟩
    simp only [statusRemove, if_pos hp]
  have hur : userRemove db uid = (db, false) := by
    have hany : db.tasks.any (fun t => t.creatorId == uid) = true := by
      rw [List.any_eq_true]
      exact ⟨t2, ht2, by simpa using h2⟩
    simp only [userRemove, if_pos hany]
  refine ⟨hsr, ?_, hur, ?_⟩
  · simp only [deleteStatusHandler, hsr]
    simp
  · simp only [deleteUserHandler, hu']
    simp only [bne_self_eq_false, Bool.false_eq_true, if_false, hur]

/-- C1 witness: in the concrete database the only task references status
1 and was created by user 1, so both removals are blocked and both
handlers flash danger. -/
theorem referenced_status_user_removal_blocked_witness :
    wTask ∈ wDB.tasks ∧ wTask.statusId = 1 ∧ wTask.creatorId = 1 ∧
      wUser.id = 1 ∧
      (statusRemove wDB 1 = (wDB, false) ∧
        deleteStatusHandler wDB (some wUser2) 1 =
          ⟨wDB, setFlash Reply.empty "danger"
            "Cannot delete status with assigned tasks",
            .redirect "/statuses"⟩ ∧
        userRemove wDB 1 = (wDB, false) ∧
        deleteUserHandler wDB (some wUser) 1 =
          ⟨wDB, setFlash Reply.empty "danger"
            "Cannot delete user with assigned tasks",
            .redirect "/users"⟩) :=
  ⟨by decide, by decide, by decide, by decide,
    referenced_status_user_removal_blocked wDB 1 1 wUser2 wUser wTask wTask
      (by decide) (by decide) (by decide) (by decide) (by decide)⟩

/-- C2: the DELETE /tasks/:id handler invokes `taskRepo.remove` (and the
task is deleted) if and only if the request has a current user whose id
equals the task's `creatorId`; otherwise it redirects to `/tasks` with
an `Access denied` danger flash and leaves the database unchanged, and a
missing task yields a 404. -/
theorem deleteTask_only_by_creator (db : DB) (cu : Option User) (id : Nat) :
    (taskFindById db id = none →
      deleteTaskHandler db cu id = ⟨db, Reply.empty, .notFound, false⟩) ∧
    (∀ task, taskFindById db id = some task →
      ((deleteTaskHandler db cu id).removeInvoked = true ↔
        ∃ u, cu = some u ∧ u.id = task.creatorId) ∧
      ((deleteTaskHandler db cu id).removeInvoked = true →
        deleteTaskHandler db cu id =
          ⟨taskRemove db id, setFlash Reply.empty "success" "task.deleted",
            .redirect "/tasks", true⟩) ∧
      ((deleteTaskHandler db cu id).removeInvoked = false →
        deleteTaskHandler db cu id =
          ⟨db, setFlash Reply.empty "danger" "Access denied",
            .redirect "/tasks", false⟩)) := by
  cases hfind : taskFindById db id with
  | none =>
    refine ⟨fun _ => by simp [deleteTaskHandler, hfind], ?_⟩
    intro task htask
    cases htask
  | some task0 =>
    constructor
    · intro h
      cases h
    intro task htask
    injection htask with heq
    subst heq
    cases cu with
    | none => simp [deleteTaskHandler, hfind]
    | some u =>
      by_cases hid : u.id = task0.creatorId
      · simp [deleteTaskHandler, hfind, hid]
      · simp [deleteTaskHandler, hfind, hid]

/-- C2 witness: in the concrete database user 1 created task 1, so the
handler invokes the removal exactly for that user. -/
theorem deleteTask_only_by_creator_witness :
    taskFindById wDB 1 = some wTask ∧
      (((deleteTaskHandler wDB (some wUser) 1).removeInvoked = true ↔
        ∃ u, some wUser = some u ∧ u.id = wTask.creatorId)) :=
  ⟨by decide,
    ((deleteTask_only_by_creator wDB (some wUser) 1).2 wTask (by decide)).1⟩

/-- C3: a POST /users registration whose email already belongs to an
existing user creates no user: the database is unchanged, the handler
redirects to /users/new with a danger flash; and the users table schema
declares the email column NOT NULL and UNIQUE. -/
theorem postUsers_duplicate_email_rejected (hash : String → String)
    (db : DB) (d : RegistrationData) (u : User)
    (hdup : userFindByEmail db d.email = some u) :
    (postUsersHandler hash db d).db = db ∧
    (postUsersHandler hash db d).outcome = .redirect "/users/new" ∧
    (∃ msg, (postUsersHandler hash db d).reply =
      setFlash Reply.empty "danger" msg) ∧
    usersTableColumns.find? (fun c => c.name == "email") =
      some ⟨"email", true, true, false⟩ := by
  have hcols : usersTableColumns.find? (fun c => c.name == "email") =
      some ⟨"email", true, true, false⟩ := by decide
  unfold postUsersHandler
  split
  · exact ⟨rfl, rfl, ⟨_, rfl⟩, hcols⟩
  · rw [hdup]
    exact ⟨rfl, rfl, ⟨_, rfl⟩, hcols⟩

/-- C3 witness: registering the email already used by the concrete user
is rejected with a redirect to /users/new and no new row. -/
theorem postUsers_duplicate_email_rejected_witness :
    userFindByEmail wDB "ada@example.com" = some wUser ∧
      ((postUsersHandler (fun s => s) wDB
          ⟨"Eva", "Noether", "ada@example.com", "secret"⟩).db = wDB ∧
        (postUsersHandler (fun s => s) wDB
          ⟨"Eva", "Noether", "ada@example.com", "secret"⟩).outcome =
          .redirect "/users/new") := by
  have h := postUsers_duplicate_email_rejected (fun s => s) wDB
    ⟨"Eva", "Noether", "ada@example.com", "secret"⟩ wUser (by decide)
  exact ⟨by decide, h.1, h.2.1⟩

/-- C4: POST /session flashes `Invalid credentials` and sets no `userId`
cookie when the email is unknown or the bcrypt comparison fails, and on
a match sets the `userId` cookie to the user's id and redirects to `/`. -/
theorem postSession_credentials (compare : String → String → Bool)
    (db : DB) (email password : String) :
    (userFindByEmail db email = none →
      postSessionHandler compare db email password =
        ⟨db, setFlash Reply.empty "danger" "Invalid credentials",
          .redirect "/session/new"⟩ ∧
      ∀ op ∈ (postSessionHandler compare db email password).reply.setCookieOps,
        op.name ≠ "userId") ∧
    (∀ user, userFindByEmail db email = some user →
      (compare password user.password = false →
        postSessionHandler compare db email password =
          ⟨db, setFlash Reply.empty "danger" "Invalid credentials",
            .redirect "/session/new"⟩ ∧
        ∀ op ∈ (postSessionHandler compare db email password).reply.setCookieOps,
          op.name ≠ "userId") ∧
      (compare password user.password = true →
        postSessionHandler compare db email password =
          ⟨db, setFlash (setCookie Reply.empty "userId" (toString user.id))
            "success" "Signed in", .redirect "/"⟩)) := by
  constructor
  · intro hnone
    constructor
    · simp [postSessionHandler, hnone]
    · intro op hop
      simp [postSessionHandler, hnone, setFlash, setCookie, Reply.empty,
        jsonStringifyFlash, flashOp] at hop
      subst hop
      decide
  · intro user huser
    constructor
    · intro hcmp
      constructor
      · simp [postSessionHandler, huser, hcmp]
      · intro op hop
        simp [postSessionHandler, huser, hcmp, setFlash, setCookie,
          Reply.empty, jsonStringifyFlash] at hop
        subst hop
        decide
    · intro hcmp
      simp [postSessionHandler, huser, hcmp]

/-- C4 witness: against the concrete database, a wrong password for a
known email is rejected with the danger flash and no session cookie, and
the right password sets `userId`. -/
theorem postSession_credentials_witness :
    userFindByEmail wDB "ada@example.com" = some wUser ∧
      ((fun p _ => p == "right" : String → String → Bool) "no" wUser.password
        = false ∧
      postSessionHandler (fun p _ => p == "right") wDB "ada@example.com" "no" =
        ⟨wDB, setFlash Reply.empty "danger" "Invalid credentials",
          .redirect "/session/new"⟩) := by
  have h := ((postSession_credentials (fun p _ => p == "right") wDB
      "ada@example.com" "no").2 wUser (by decide)).1 (by decide)
  exact ⟨by decide, by decide, h.1⟩

/- Cookie-jar lookup lemmas used for the one-shot flash property. -/

theorem beq_false_of_ne {a b : String} (h : a ≠ b) : (a == b) = false := by
  by_cases hb : (a == b) = true
  · exact absurd (eq_of_beq hb) h
  · simpa using hb

theorem lookup_filter_self (jar : List (String × String)) (a : String) :
    (jar.filter (fun kv => kv.1 != a)).lookup a = none := by
  induction jar with
  | nil => rfl
  | cons kv jar ih =>
    obtain ⟨k, v⟩ := kv
    by_cases hk : k = a
    · simpa [List.filter_cons, hk] using ih
    · have hak : (a == k) = false := beq_false_of_ne (Ne.symm hk)
      simp [List.filter_cons, List.lookup, hk, hak, ih]

theorem lookup_filter_other (jar : List (String × String)) (a b : String)
    (h : a ≠ b) :
    (jar.filter (fun kv => kv.1 != a)).lookup b = jar.lookup b := by
  induction jar with
  | nil => rfl
  | cons kv jar ih =>
    obtain ⟨k, v⟩ := kv
    by_cases hk : k = a
    · subst hk
      have hba : (b == k) = false := beq_false_of_ne (Ne.symm h)
      simp [List.filter_cons, List.lookup, hba, ih]
    · by_cases hb : k = b
      · subst hb
        simp [List.filter_cons, List.lookup, hk, ih]
      · have hbk : (b == k) = false := beq_false_of_ne (Ne.symm hb)
        simp [List.filter_cons, List.lookup, hk, hbk, ih]

theorem lookup_append_single_ne (l : List (String × String))
    (a v b : String) (h : a ≠ b) :
    (l ++ [(a, v)]).lookup b = l.lookup b := by
  induction l with
  | nil =>
    have hba : (b == a) = false := beq_false_of_ne (Ne.symm h)
    simp [List.lookup, hba]
  | cons kv l ih =>
    obtain ⟨k, v'⟩ := kv
    by_cases hb : k = b
    · subst hb
      simp [List.lookup, List.cons_append, ih]
    · have hbk : (b == k) = false := beq_false_of_ne (Ne.symm hb)
      simp [List.lookup, List.cons_append, hbk, ih]

theorem lookup_applyCookieOp_other (jar : List (String × String))
    (op : CookieOp) (b : String) (h : op.name ≠ b) :
    (applyCookieOp jar op).lookup b = jar.lookup b := by
  cases he : op.expired with
  | true =>
    simp only [applyCookieOp, he, if_true]
    exact lookup_filter_other jar op.name b h
  | false =>
    simp only [applyCookieOp, he, Bool.false_eq_true, if_false]
    rw [lookup_append_single_ne _ _ _ _ h]
    exact lookup_filter_other jar op.name b h

theorem lookup_applyCookieOps_none (ops : List CookieOp) :
    ∀ jar : List (String × String), jar.lookup "flash" = none →
    (∀ op ∈ ops, op.name ≠ "flash") →
    (applyCookieOps jar ops).lookup "flash" = none := by
  induction ops with
  | nil =>
    intro jar h _
    exact h
  | cons op ops ih =>
    intro jar h hops
    have hop : op.name ≠ "flash" := hops op (by simp)
    have hstep : (applyCookieOp jar op).lookup "flash" = none :=
      (lookup_applyCookieOp_other jar op "flash" hop).trans h
    have : applyCookieOps jar (op :: ops) =
        applyCookieOps (applyCookieOp jar op) ops := rfl
    rw [this]
    exact ih (applyCookieOp jar op) hstep (fun o ho => hops o (by simp [ho]))

/-- C6: the flash is one-shot.  With no flash cookie `getFlash` returns
`null`; with a flash cookie whose payload parses, it returns the payload
and clears the cookie on the same response; and once the response's
expired `flash` Set-Cookie is applied to the browser jar (and no later
Set-Cookie touches `flash`), `getFlash` on the next request returns
`null`. -/
theorem flash_one_shot (parse : String → Option FlashPayload)
    (cookies : List (String × String)) (reply : Reply) :
    (cookies.lookup "flash" = none →
      getFlash parse cookies reply = (none, reply)) ∧
    (∀ v p, cookies.lookup "flash" = some v → parse v = some p →
      getFlash parse cookies reply = (some p, clearCookie reply "flash")) ∧
    (∀ (pre post : List CookieOp) (reply' : Reply),
      (∀ op ∈ post, op.name ≠ "flash") →
      getFlash parse
        (applyCookieOps cookies (pre ++ ⟨"flash", "", true⟩ :: post)) reply' =
      (none, reply')) := by
  refine ⟨?_, ?_, ?_⟩
  · intro h
    simp [getFlash, h]
  · intro v p hv hp
    simp [getFlash, hv, hp]
  · intro pre post reply' hpost
    have h0 : (applyCookieOp (applyCookieOps cookies pre)
        ⟨"flash", "", true⟩).lookup "flash" = none := by
      simp only [applyCookieOp, if_true]
      exact lookup_filter_self _ "flash"
    have h1 : (applyCookieOps cookies
        (pre ++ ⟨"flash", "", true⟩ :: post)).lookup "flash" = none := by
      unfold applyCookieOps
      rw [List.foldl_append, List.foldl_cons]
      exact lookup_applyCookieOps_none post _ h0 hpost
    simp [getFlash, h1]

/-- C6 witness: a concrete jar carrying a parseable flash cookie yields
the payload once, the response clears the cookie, and after the clear is
applied the next read yields `null`. -/
theorem flash_one_shot_witness :
    ([("flash", "F")] : List (String × String)).lookup "flash" = some "F" ∧
    (fun s => if s == "F" then some (⟨"danger", "boom"⟩ : FlashPayload)
      else none) "F" = some ⟨"danger", "boom"⟩ ∧
    getFlash (fun s => if s == "F" then some ⟨"danger", "boom"⟩ else none)
      [("flash", "F")] Reply.empty =
      (some ⟨"danger", "boom"⟩, clearCookie Reply.empty "flash") ∧
    getFlash (fun s => if s == "F" then some ⟨"danger", "boom"⟩ else none)
      (applyCookieOps [("flash", "F")] ([] ++ ⟨"flash", "", true⟩ :: []))
      Reply.empty = (none, Reply.empty) := by
  refine ⟨by decide, by decide, ?_, ?_⟩
  · exact (flash_one_shot (fun s => if s == "F" then some ⟨"danger", "boom"⟩
      else none) [("flash", "F")] Reply.empty).2.1 "F" ⟨"danger", "boom"⟩
      (by decide) (by decide)
  · exact (flash_one_shot (fun s => if s == "F" then some ⟨"danger", "boom"⟩
      else none) [("flash", "F")] Reply.empty).2.2 [] [] Reply.empty
      (by simp)

/-- C7 counterexample: a POST whose `_method` is `put` does not uppercase
to PATCH or DELETE, yet the hook rewrites the method to PUT instead of
keeping POST, because the hook also accepts PUT. -/
theorem methodOverride_put_rewrites :
    methodOverride "POST" (some "put") = "PUT" ∧
    ¬ methodOverride "POST" (some "put") = "POST" := by
  decide

/-- C7 (amended): on a POST whose truthy `_method` uppercases to PATCH,
DELETE or PUT the hook rewrites the method to that verb; a POST whose
`_method` is absent, empty, or uppercases to anything else keeps POST;
non-POST requests are never rewritten. -/
theorem methodOverride_semantics (method : String) (m : Option String) :
    (∀ s, m = some s → s ≠ "" →
      (jsToUpperCase s = "PATCH" ∨ jsToUpperCase s = "DELETE" ∨
        jsToUpperCase s = "PUT") →
      methodOverride "POST" m = jsToUpperCase s) ∧
    (∀ s, m = some s → s ≠ "" →
      ¬(jsToUpperCase s = "PATCH" ∨ jsToUpperCase s = "DELETE" ∨
        jsToUpperCase s = "PUT") →
      methodOverride "POST" m = "POST") ∧
    (m = none → methodOverride "POST" m = "POST") ∧
    (∀ s, m = some s → s = "" → methodOverride "POST" m = "POST") ∧
    (method ≠ "POST" → methodOverride method m = method) := by
  refine ⟨?_, ?_, ?_, ?_, ?_⟩
  · intro s hm hs hcase
    subst hm
    rcases hcase with h | h | h <;> simp [methodOverride, hs, h]
  · intro s hm hs hcase
    subst hm
    push_neg at hcase
    simp [methodOverride, hs, hcase.1, hcase.2.1, hcase.2.2]
  · intro hm
    subst hm
    rfl
  · intro s hm hs
    subst hm
    subst hs
    rfl
  · intro hm
    simp [methodOverride, hm]

/-- C7 witness: `_method=delete` on a POST rewrites the method to
DELETE. -/
theorem methodOverride_semantics_witness :
    ((some "delete" : Option String) = some "delete" ∧ "delete" ≠ "" ∧
      (jsToUpperCase "delete" = "PATCH" ∨ jsToUpperCase "delete" = "DELETE" ∨
        jsToUpperCase "delete" = "PUT")) ∧
    methodOverride "POST" (some "delete") = jsToUpperCase "delete" :=
  ⟨⟨rfl, by decide, by decide⟩,
    (methodOverride_semantics "GET" (some "delete")).1 "delete" rfl
      (by decide) (by decide)⟩

/-- C8: the global error handler forwards the error together with the
request data to the monitoring collaborator exactly when one is
configured, and always answers with a generic 500 `Internal Server
Error` body that does not depend on the error. -/
theorem errorHandler_generic_response (c : Bool) (e e2 r : String) :
    (errorHandler c e r).status = 500 ∧
    (errorHandler c e r).contentType = "text/html" ∧
    (errorHandler c e r).body = "Internal Server Error" ∧
    (c = true → (errorHandler c e r).reported = some (e, r)) ∧
    (c = false → (errorHandler c e r).reported = none) ∧
    (errorHandler c e r).body = (errorHandler c e2 r).body := by
  refine ⟨rfl, rfl, rfl, ?_, ?_, rfl⟩ <;> intro h <;> simp [errorHandler, h]

/-- C8 witness: with Rollbar configured, a concrete error is forwarded
with its request data while the client still receives the generic 500
response. -/
theorem errorHandler_generic_response_witness :
    (true = true) ∧
    ((errorHandler true "boom" "GET /tasks").status = 500 ∧
      (errorHandler true "boom" "GET /tasks").reported =
        some ("boom", "GET /tasks")) := by
  have h := errorHandler_generic_response true "boom" "other" "GET /tasks"
  exact ⟨rfl, h.1, h.2.2.2.1 rfl⟩

/-- C5: the GET /tasks handler AND-conjoins the supplied filters, so
every task it passes to the view satisfies each present filter
(statusId, executorId, labelId, hasLabel, created-by-me), and the
created-by filter is applied only when a current user was resolved from
the session cookie. -/
theorem getTasks_filters_conjoined (db : DB) (cu : Option User)
    (q : TasksQuery) :
    (cu = none → (buildTaskFilters q cu).createdBy = none) ∧
    ∀ t ∈ getTasksHandlerTasks db cu q,
      (∀ s n, q.statusId = some s → jsNumber s = some n → t.statusId = n) ∧
      (∀ s n, q.executorId = some s → jsNumber s = some n →
        t.executorId = some n) ∧
      (∀ s n, q.labelId = some s → jsNumber s = some n →
        ∃ tl ∈ db.tasksLabels, tl.taskId = t.id ∧ tl.labelId = n) ∧
      ((q.hasLabel = some "1" ∨ q.hasLabel = some "true" ∨
          q.hasLabel = some "on") →
        ∃ tl ∈ db.tasksLabels, tl.taskId = t.id) ∧
      (∀ u, cu = some u →
        (q.onlyMy = some "1" ∨ q.onlyMy = some "true" ∨
          q.onlyMy = some "on") →
        t.creatorId = u.id) := by
  constructor
  · intro hcu
    simp [buildTaskFilters, hcu]
  · intro t ht
    simp only [getTasksHandlerTasks, taskFindAll, List.mem_filter] at ht
    obtain ⟨htm, hpred⟩ := ht
    simp only [Bool.and_eq_true] at hpred
    obtain ⟨⟨⟨⟨h1, h2⟩, h3⟩, h4⟩, h5⟩ := hpred
    refine ⟨?_, ?_, ?_, ?_, ?_⟩
    · intro s n hqs hn
      have hs : s ≠ "" := by
        intro he
        rw [he] at hn
        cases hn
      have hf : (buildTaskFilters q cu).statusId = some (some n) := by
        simp [buildTaskFilters, hqs, jsTruthy, hs, hn]
      rw [hf] at h1
      simp at h1
      exact h1.symm
    · intro s n hqs hn
      have hs : s ≠ "" := by
        intro he
        rw [he] at hn
        cases hn
      have hf : (buildTaskFilters q cu).executorId = some (some n) := by
        simp [buildTaskFilters, hqs, jsTruthy, hs, hn]
      rw [hf] at h2
      cases hte : t.executorId with
      | none =>
        rw [hte] at h2
        cases h2
      | some e =>
        rw [hte] at h2
        simp at h2
        rw [h2]
    · intro s n hqs hn
      have hs : s ≠ "" := by
        intro he
        rw [he] at hn
        cases hn
      have hf : (buildTaskFilters q cu).labelId = some (some n) := by
        simp [buildTaskFilters, hqs, jsTruthy, hs, hn]
      rw [hf] at h3
      simp only [List.any_eq_true, Bool.and_eq_true, beq_iff_eq,
        Option.some.injEq] at h3
      obtain ⟨tl, htl, hteq, hleq⟩ := h3
      exact ⟨tl, htl, hteq, hleq⟩
    · intro hql
      have hf : (buildTaskFilters q cu).hasLabel = true := by
        rcases hql with h | h | h <;> simp [buildTaskFilters, jsTruthy, h]
      rw [hf] at h4
      simp only [if_true, List.any_eq_true, beq_iff_eq] at h4
      exact h4
    · intro u hcu hflag
      have hf : (buildTaskFilters q cu).createdBy = some u.id := by
        rcases hflag with h | h | h <;>
          simp [buildTaskFilters, jsTruthy, hcu, h]
      rw [hf] at h5
      simpa using h5

/-- C5 witness: with filters statusId=1 and onlyMy=1 and the concrete
logged-in user, the single returned task has status 1 and was created by
that user. -/
theorem getTasks_filters_conjoined_witness :
    wTask ∈ getTasksHandlerTasks wDB (some wUser)
        ⟨some "1", none, none, some "1", none⟩ ∧
      (wTask.statusId = 1 ∧ wTask.creatorId = wUser.id) := by
  have hm : wTask ∈ getTasksHandlerTasks wDB (some wUser)
      ⟨some "1", none, none, some "1", none⟩ := by decide
  have h := (getTasks_filters_conjoined wDB (some wUser)
      ⟨some "1", none, none, some "1", none⟩).2 wTask hm
  exact ⟨hm, h.1 "1" 1 rfl (by decide), h.2.2.2.2 wUser rfl (Or.inl rfl)⟩

/- Helper lemmas for C10. -/

theorem mem_upsert {kv' kv : String × String} {acc : List (String × String)}
    (h : kv' ∈ upsert acc kv) : kv' ∈ acc ∨ kv' = kv := by
  unfold upsert at h
  rcases List.mem_append.mp h with h | h
  · exact Or.inl (List.mem_filter.mp h).1
  · simp at h
    exact Or.inr h

theorem foldl_pairs_pred (dec : String → Option String)
    (P : String × String → Prop) :
    ∀ (pairs : List String) (acc : List (String × String)),
      (∀ kv ∈ acc, P kv) →
      (∀ pair ∈ pairs, ∀ kv, pairKeyVal dec pair = some kv → P kv) →
      ∀ kv ∈ pairs.foldl (fun acc pair =>
          match pairKeyVal dec pair with
          | none => acc
          | some kv => upsert acc kv) acc, P kv := by
  intro pairs
  induction pairs with
  | nil =>
    intro acc hacc _ kv hkv
    exact hacc kv hkv
  | cons pair pairs ih =>
    intro acc hacc hpairs kv hkv
    rw [List.foldl_cons] at hkv
    cases hpv : pairKeyVal dec pair with
    | none =>
      rw [hpv] at hkv
      exact ih acc hacc (fun p hp => hpairs p (by simp [hp])) kv hkv
    | some kv0 =>
      rw [hpv] at hkv
      refine ih (upsert acc kv0) ?_ (fun p hp => hpairs p (by simp [hp]))
        kv hkv
      intro kv' hkv'
      rcases mem_upsert hkv' with h | h
      · exact hacc kv' h
      · subst h
        exact hpairs pair (by simp) kv' hpv

/-- C10: cookie parsing is total and never throws: a missing header
yields the empty map, every produced entry comes from a split/trimmed
pair that contains `=` and was handled by the key/value step, a pair
without `=` is skipped, a value whose `decodeURIComponent` throws falls
back to the raw value, and `getFlash` returns `null` without clearing
anything when the flash cookie is not valid JSON. -/
theorem parseCookies_total_getFlash_safe (dec : String → Option String)
    (parse : String → Option FlashPayload) :
    parseCookies dec none = [] ∧
    (∀ h kv, kv ∈ parseCookies dec (some h) →
      ∃ pair ∈ splitPairs h, pairKeyVal dec pair = some kv) ∧
    (∀ pair, (∀ c ∈ pair.toList, c ≠ '=') → pairKeyVal dec pair = none) ∧
    (∀ pair i, pair.toList.findIdx? (fun c => c == '=') = some i →
      dec (jsTrim (String.mk (pair.toList.drop (i + 1)))) = none →
      pairKeyVal dec pair =
        some (jsTrim (String.mk (pair.toList.take i)),
          jsTrim (String.mk (pair.toList.drop (i + 1))))) ∧
    (∀ (cookies : List (String × String)) (reply : Reply) v,
      cookies.lookup "flash" = some v → parse v = none →
      getFlash parse cookies reply = (none, reply)) := by
  refine ⟨rfl, ?_, ?_, ?_, ?_⟩
  · intro h kv hkv
    exact foldl_pairs_pred dec
      (fun kv => ∃ pair ∈ splitPairs h, pairKeyVal dec pair = some kv)
      (splitPairs h) [] (by simp)
      (fun pair hp kv0 hkv0 => ⟨pair, hp, hkv0⟩) kv hkv
  · intro pair hpair
    unfold pairKeyVal
    have hnone : pair.toList.findIdx? (fun c => c == '=') = none := by
      rw [List.findIdx?_eq_none_iff]
      intro c hc
      exact beq_eq_false_iff_ne.mpr (hpair c hc)
    rw [hnone]
  · intro pair i hidx hdec
    unfold pairKeyVal
    rw [hidx]
    simp only [String.toList] at hdec
    simp [hdec]
  · intro cookies reply v hv hp
    simp [getFlash, hv, hp]

/-- C10 witness: the header `a; flash=%` has one pair without `=`
(skipped) and one whose value fails percent-decoding (kept raw), and a
flash cookie that is not valid JSON makes `getFlash` return `null` with
the reply untouched. -/
theorem parseCookies_total_getFlash_safe_witness :
    ((∀ c ∈ ("a".toList : List Char), c ≠ '=') ∧
      pairKeyVal (fun _ => none) "a" = none) ∧
    (("flash=%".toList.findIdx? (fun c => c == '=') = some 5) ∧
      pairKeyVal (fun _ => none) "flash=%" = some ("flash", "%")) ∧
    (([("flash", "%")] : List (String × String)).lookup "flash" = some "%" ∧
      getFlash (fun _ => none) [("flash", "%")] Reply.empty =
        (none, Reply.empty)) := by
  have h := parseCookies_total_getFlash_safe (fun _ => none) (fun _ => none)
  refine ⟨⟨by decide, h.2.2.1 "a" (by decide)⟩, ⟨by decide, ?_⟩,
    by decide, ?_⟩
  · have h4 := h.2.2.2.1 "flash=%" 5 (by decide) rfl
    rw [h4]
    decide
  · exact h.2.2.2.2 [("flash", "%")] Reply.empty "%" (by decide) rfl

end TaskApp
